import Mathlib

set_option maxRecDepth 8000

/-!
Shallow embedding of the simple-file-server repository (SERVER.py / CLIENT.py,
canonical drafts with BUFFER = 1024).

Bytes are modelled as natural numbers; a TCP connection is modelled as the list
of deliveries still pending (one delivery per peer sendall call), and a recv of
n bytes returns at most n bytes from the first pending delivery, mirroring the
semantics of a single socket recv call.  An exhausted delivery list models a
connection on which the peer has closed its side: recv then returns the empty
byte string, exactly as a Python socket recv does after a graceful close.
-/

namespace FileServer

/-- BUFFER constant from SERVER.py / CLIENT.py line 8/13. -/
def BUFFER : Nat := 1024

/-- UTF-8 bytes of a string, as natural numbers: model of Python
str.encode("utf-8").  Uses the standard UTF-8 encoder on the character list. -/
def utf8Bytes (s : String) : List Nat :=
  (s.data.flatMap String.utf8EncodeChar).map (fun b => b.toNat)

/-- Big-endian ASCII decimal digit bytes of n, fuel-structured so the kernel
can evaluate it; with fuel at least n it agrees with Python str(n) for n > 0. -/
def decDigitsAux : Nat → Nat → List Nat
  | 0, _ => []
  | fuel + 1, n => if n = 0 then [] else decDigitsAux fuel (n / 10) ++ [n % 10 + 48]

/-- ASCII decimal bytes of a natural number: model of Python str(n).encode(). -/
def natDecimalBytes (n : Nat) : List Nat :=
  if n = 0 then [48] else decDigitsAux n n

/-- Model of bytes.ljust(BUFFER): pad on the right with ASCII space (32). -/
def ljustBytes (bs : List Nat) : List Nat :=
  bs ++ List.replicate (BUFFER - bs.length) 32

/-- The fixed-width size header for the value n: str(n).ljust(BUFFER) as bytes
(SERVER.py line 59, CLIENT.py line 92 and the header part of encode_to_bytes). -/
def headerOfNat (n : Nat) : List Nat :=
  ljustBytes (natDecimalBytes n)

/-- encode_to_bytes from SERVER.py lines 26-32 / CLIENT.py lines 27-33:
str(len(data)).encode(FORMAT).ljust(BUFFER).  Crucially len(data) counts the
characters of the Python str, not the bytes of its UTF-8 encoding. -/
def encode_to_bytes (data : String) : List Nat :=
  headerOfNat data.length

/-- Decimal digit byte predicate: ASCII 48..57. -/
def isDigitByte (b : Nat) : Bool := 48 ≤ b && b ≤ 57

/-- Strip ASCII spaces from both ends, as Python int() does before parsing. -/
def stripSpaces (bs : List Nat) : List Nat :=
  ((bs.dropWhile (fun b => b == 32)).reverse.dropWhile (fun b => b == 32)).reverse

/-- Model of Python int(bs.decode("utf-8")): strips surrounding whitespace and
parses a decimal numeral; none models the ValueError raised on anything else
(UnicodeDecodeError is a subclass of ValueError, so both failure modes of the
source line are a single none here). -/
def parseDecimal (bs : List Nat) : Option Nat :=
  let core := stripSpaces bs
  if core.isEmpty || !(core.all isDigitByte) then none
  else some (core.foldl (fun acc b => acc * 10 + (b - 48)) 0)

/-- A connection is the list of pending deliveries (byte strings), one per
sendall call by the peer; the empty list is a closed / exhausted connection. -/
abbrev Conn := List (List Nat)

/-- Model of one socket recv(n) call: returns at most n bytes, taken from the
first pending delivery only; on an exhausted connection it returns the empty
byte string (Python recv semantics after the peer closed). -/
def recv (n : Nat) (c : Conn) : List Nat × Conn :=
  match c with
  | [] => ([], [])
  | d :: rest => if d.length ≤ n then (d, rest) else (d.take n, d.drop n :: rest)

/-- recv_data from SERVER.py lines 34-41 / CLIENT.py lines 35-42: one recv of
up to BUFFER bytes for the header, int() on it, then one recv of up to that
many bytes for the payload; none models the ValueError escape. -/
def recv_data (c : Conn) : Option (List Nat × Conn) :=
  match recv BUFFER c with
  | (hdr, c1) =>
    match parseDecimal hdr with
    | none => none
    | some n => some (recv n c1)

/-! Codec lemmas: the padded decimal header parses back to the number it
encodes, and recv pops a delivery exactly when the request covers it. -/

theorem decDigitsAux_all_digits (fuel n : Nat) :
    (decDigitsAux fuel n).all isDigitByte = true := by
  induction fuel generalizing n with
  | zero => rfl
  | succ f ih =>
    unfold decDigitsAux
    by_cases h : n = 0
    · simp [h]
    · simp only [h, if_false, List.all_append, ih]
      simp [isDigitByte]
      omega

theorem natDecimalBytes_all_digits (n : Nat) :
    (natDecimalBytes n).all isDigitByte = true := by
  unfold natDecimalBytes
  by_cases h : n = 0
  · simp [h, isDigitByte]
  · simp [h, decDigitsAux_all_digits]

theorem natDecimalBytes_ne_nil (n : Nat) : natDecimalBytes n ≠ [] := by
  unfold natDecimalBytes
  by_cases h : n = 0
  · simp [h]
  · obtain ⟨f, rfl⟩ := Nat.exists_eq_succ_of_ne_zero h
    simp [decDigitsAux, h]

theorem dropWhile_space_of_digits (l : List Nat) (h : l.all isDigitByte = true) :
    l.dropWhile (fun b => b == 32) = l := by
  cases l with
  | nil => rfl
  | cons a t =>
    have ha : isDigitByte a = true := by
      simp [List.all_cons] at h; exact h.1
    have : (a == 32) = false := by
      simp [isDigitByte] at ha
      simp
      omega
    simp [List.dropWhile_cons, this]

theorem dropWhile_space_replicate (k : Nat) (l : List Nat) :
    (List.replicate k 32 ++ l).dropWhile (fun b => b == 32) =
      l.dropWhile (fun b => b == 32) := by
  induction k with
  | zero => rfl
  | succ m ih => simp [List.replicate_succ, List.dropWhile_cons, ih]

theorem stripSpaces_digits_pad (ds : List Nat) (k : Nat)
    (hall : ds.all isDigitByte = true) (hne : ds ≠ []) :
    stripSpaces (ds ++ List.replicate k 32) = ds := by
  unfold stripSpaces
  have h1 : (ds ++ List.replicate k 32).dropWhile (fun b => b == 32) =
      ds ++ List.replicate k 32 := by
    cases ds with
    | nil => exact absurd rfl hne
    | cons a t =>
      have ha : isDigitByte a = true := by
        simp [List.all_cons] at hall; exact hall.1
      have : (a == 32) = false := by
        simp [isDigitByte] at ha
        simp
        omega
      simp [List.dropWhile_cons, this]
  rw [h1, List.reverse_append, List.reverse_replicate, dropWhile_space_replicate,
    dropWhile_space_of_digits ds.reverse (by simpa using hall), List.reverse_reverse]

theorem foldl_decDigitsAux (n : Nat) :
    ∀ fuel a, n ≤ fuel →
      (decDigitsAux fuel n).foldl (fun acc b => acc * 10 + (b - 48)) a =
        a * 10 ^ (decDigitsAux fuel n).length + n := by
  induction n using Nat.strong_induction_on with
  | _ n ih =>
    intro fuel a hfuel
    cases fuel with
    | zero =>
      interval_cases n
      simp [decDigitsAux]
    | succ f =>
      by_cases h : n = 0
      · simp [decDigitsAux, h]
      · have hdiv : n / 10 < n := Nat.div_lt_self (Nat.pos_of_ne_zero h) (by omega)
        have hdf : n / 10 ≤ f := by omega
        simp only [decDigitsAux, h, if_false]
        rw [List.foldl_append]
        simp only [List.foldl_cons, List.foldl_nil, List.length_append,
          List.length_singleton]
        rw [ih (n / 10) hdiv f a hdf]
        have hmod : n % 10 + 48 - 48 = n % 10 := by omega
        rw [hmod, pow_succ]
        have := Nat.div_add_mod n 10
        ring_nf
        omega

theorem foldl_natDecimalBytes (n : Nat) :
    (natDecimalBytes n).foldl (fun acc b => acc * 10 + (b - 48)) 0 = n := by
  unfold natDecimalBytes
  by_cases h : n = 0
  · simp [h]
  · rw [if_neg h, foldl_decDigitsAux n n 0 le_rfl]
    simp

/-- Parsing a well-formed padded header recovers the encoded number, provided
the decimal representation fits the header width. -/
theorem parseDecimal_headerOfNat (n : Nat) :
    parseDecimal (headerOfNat n) = some n := by
  unfold parseDecimal headerOfNat ljustBytes
  rw [stripSpaces_digits_pad _ _ (natDecimalBytes_all_digits n) (natDecimalBytes_ne_nil n)]
  simp only [List.isEmpty_eq_true, natDecimalBytes_ne_nil n, natDecimalBytes_all_digits n,
    Bool.not_true, Bool.or_false, if_false]
  rw [foldl_natDecimalBytes]

theorem headerOfNat_length (n : Nat)
    (hfit : (natDecimalBytes n).length ≤ BUFFER) :
    (headerOfNat n).length = BUFFER := by
  unfold headerOfNat ljustBytes
  simp only [List.length_append, List.length_replicate]
  omega

/-- recv pops the first delivery whole when asked for at least its length. -/
theorem recv_pop (n : Nat) (d : List Nat) (ds : Conn) (h : d.length ≤ n) :
    recv n (d :: ds) = (d, ds) := by
  simp [recv, h]

/-- Amended frame round-trip: when the connection delivers the header as one
complete delivery and the payload as the next, recv_data returns exactly the
payload (this is the behavior of the single-recv source code on unsplit
deliveries). -/
theorem recv_data_whole (n : Nat) (payload : List Nat) (ds : Conn)
    (hfit : (natDecimalBytes n).length ≤ BUFFER)
    (hlen : payload.length = n) :
    recv_data (headerOfNat n :: payload :: ds) = some (payload, ds) := by
  unfold recv_data
  rw [recv_pop BUFFER _ _ (le_of_eq (headerOfNat_length n hfit))]
  dsimp only
  rw [parseDecimal_headerOfNat n]
  dsimp only
  rw [recv_pop n payload ds (le_of_eq hlen)]

/-! File Transfer Engine: chunked sending (f.read(BUFFER) loops) and the
accumulating receive loop shared by SERVER.store_file and CLIENT.store_file. -/

/-- Chunking of a byte string into BUFFER-sized pieces: the deliveries made by
the sendall-per-chunk loops (SERVER.py lines 61-64, CLIENT.py lines 98-101). -/
def chunks (bs : List Nat) : List (List Nat) :=
  if h : bs = [] then [] else bs.take BUFFER :: chunks (bs.drop BUFFER)
termination_by bs.length
decreasing_by
  simp only [List.length_drop]
  have h1 := List.length_pos.mpr h
  have h2 : BUFFER = 1024 := rfl
  omega

/-- The receive-accumulate loop of SERVER.py lines 85-92 and CLIENT.py lines
133-143: while received < filesize, recv up to BUFFER bytes, append them and
add their count to received.  The source loop has no termination guarantee, so
it is embedded with explicit fuel; none means the fuel ran out, i.e. the loop
had not finished after that many iterations. -/
def storeLoop (fuel filesize received : Nat) (acc : List Nat) (c : Conn) :
    Option (List Nat × Conn) :=
  match fuel with
  | 0 => none
  | f + 1 =>
    if received < filesize then
      match recv BUFFER c with
      | (bs, c1) => storeLoop f filesize (received + bs.length) (acc ++ bs) c1
    else
      some (acc, c)

/-- Server-side store_file (SERVER.py lines 69-104), from the size-header read
onward: parse the size from one recv, run the receive loop, then record the
file under the given name (open(filepath, "wb") overwrites).  none models the
ValueError escape on a bad size header, or exhausted fuel. -/
def store_file_server (fuel : Nat) (filename : String)
    (storage : List (String × List Nat)) (c : Conn) :
    Option (List (String × List Nat) × Conn) :=
  match recv BUFFER c with
  | (hdr, c1) =>
    match parseDecimal hdr with
    | none => none
    | some filesize =>
      match storeLoop fuel filesize 0 [] c1 with
      | none => none
      | some (content, c2) => some ((filename, content) :: storage, c2)

/-- Server-side send_file (SERVER.py lines 43-67): status byte '1' plus size
header plus chunked contents when the file exists in storage, the single
status byte '0' otherwise.  The result is the list of sendall deliveries. -/
def send_file (storage : List (String × List Nat)) (filename : String) :
    List (List Nat) :=
  match storage.lookup filename with
  | some content => [49] :: headerOfNat content.length :: chunks content
  | none => [[48]]

/-- Client-side store_file (CLIENT.py lines 113-148): read one status byte; on
'0' return with no file created (modelled as some none); otherwise parse the
size header and run the receive loop, the collected bytes being the file that
is written (some (some bytes)). -/
def store_file_client (fuel : Nat) (c : Conn) : Option (Option (List Nat)) :=
  match recv 1 c with
  | (st, c1) =>
    if st = [48] then some none
    else
      match recv BUFFER c1 with
      | (hdr, c2) =>
        match parseDecimal hdr with
        | none => none
        | some filesize =>
          match storeLoop fuel filesize 0 [] c2 with
          | none => none
          | some (content, _) => some (some content)

/-- Client-side send_file (CLIENT.py lines 83-101): the deliveries of an
upload, size header first and then the chunked file contents. -/
def send_file_client (content : List Nat) : List (List Nat) :=
  headerOfNat content.length :: chunks content

/-- get_dir message (SERVER.py line 116): a "Server Directory" title line plus
the newline-joined listing when non-empty, a fixed sentinel otherwise. -/
def get_dir_msg (file_list : List String) : String :=
  if file_list.isEmpty then "Server Directory is empty"
  else "Server Directory\n" ++ String.intercalate "\n" file_list

/-- get_dir (SERVER.py lines 106-119): sends the message as one frame, header
delivery then payload delivery. -/
def get_dir (file_list : List String) : List (List Nat) :=
  [encode_to_bytes (get_dir_msg file_list), utf8Bytes (get_dir_msg file_list)]

/-! Handle Registry and the per-connection session loop. -/

/-- Result of one register_client call: the status byte sent, the value
returned to the caller, and the registry afterwards. -/
structure RegResult where
  sent : List Nat
  ret : Option String
  registers : List String
deriving DecidableEq

/-- register_client (SERVER.py lines 121-142): if the handle is already in the
registry, send status byte '0' and return None leaving the registry alone;
otherwise append it, send '1' and return the handle. -/
def register_client (reg : String) (registers : List String) : RegResult :=
  if reg ∈ registers then ⟨[48], none, registers⟩
  else ⟨[49], some reg, registers ++ [reg]⟩

/-- One request consumed by an iteration of the handle_client loop: the opcode
token together with the framed argument that the loop reads for every opcode
other than /dir and /leave.  unknown carries an opcode outside the five known
ones plus whether the recv_data call that follows it parsed (frameOk); ioError
stands for a recv that raised ConnectionError or a frame read that raised
ValueError before dispatch. -/
inductive Request where
  | register (h : String)
  | store (filename : String)
  | get (filename : String)
  | dir
  | leave
  | unknown (op : String) (frameOk : Bool)
  | ioError
deriving DecidableEq

/-- Result of a session loop run: the reg variable at loop exit, the registry,
the status bytes the loop sent via register_client, and the requests left
unconsumed when the loop exited. -/
structure SessionResult where
  reg : Option String
  registers : List String
  sent : List (List Nat)
  remaining : List Request
deriving DecidableEq

/-- The while-loop of handle_client (SERVER.py lines 147-172), one constructor
case per dispatch outcome of the source: /register rebinds reg to the return
value of register_client (None on a duplicate); /store, /get and /dir never
touch the registry (store_file, send_file and get_dir do not reference
registers); /leave breaks; an unknown opcode whose following frame parsed hits
no case of the match statement and the loop silently continues; a frame that
fails to parse raises ValueError and breaks, as does a ConnectionError. -/
def session_loop : List Request → Option String → List String → List (List Nat) →
    SessionResult
  | [], reg, regs, sent => ⟨reg, regs, sent, []⟩
  | .register h :: rest, _, regs, sent =>
      match register_client h regs with
      | ⟨st, ret, regs1⟩ => session_loop rest ret regs1 (sent ++ [st])
  | .store _ :: rest, reg, regs, sent => session_loop rest reg regs sent
  | .get _ :: rest, reg, regs, sent => session_loop rest reg regs sent
  | .dir :: rest, reg, regs, sent => session_loop rest reg regs sent
  | .leave :: rest, reg, regs, sent => ⟨reg, regs, sent, rest⟩
  | .unknown _ true :: rest, reg, regs, sent => session_loop rest reg regs sent
  | .unknown _ false :: rest, reg, regs, sent => ⟨reg, regs, sent, rest⟩
  | .ioError :: rest, reg, regs, sent => ⟨reg, regs, sent, rest⟩

/-- handle_client (SERVER.py lines 144-179): run the loop with reg = None,
then remove reg from the registry only when it is truthy (a non-None,
non-empty handle).  Returns the final registry plus the loop result. -/
def handle_client (reqs : List Request) (registers : List String) :
    List String × SessionResult :=
  match session_loop reqs none registers [] with
  | r =>
    (match r.reg with
     | some h => if h = "" then r.registers else r.registers.erase h
     | none => r.registers, r)

/-! Racing registrations: under the GIL each membership test and each append
on the registers list is atomic, but register_client performs them as two
separate actions with a possible thread switch between them.  A thread is a
program counter (0 = about to run the membership test of line 129, 1 = about
to run the append of line 135, 2 = done) plus its eventual return status. -/

structure ThreadState where
  pc : Nat
  result : Option Bool
deriving DecidableEq

/-- One atomic action of register_client as run by one thread. -/
def threadStep (h : String) (regs : List String) (t : ThreadState) :
    List String × ThreadState :=
  match t.pc with
  | 0 => if h ∈ regs then (regs, ⟨2, some false⟩) else (regs, ⟨1, none⟩)
  | 1 => (regs ++ [h], ⟨2, some true⟩)
  | _ => (regs, t)

/-- Two connection threads racing to register the same handle. -/
structure RaceState where
  registers : List String
  t1 : ThreadState
  t2 : ThreadState
deriving DecidableEq

/-- Let the scheduled thread (true = first) run its next atomic action. -/
def raceStep (h : String) (s : RaceState) (who : Bool) : RaceState :=
  if who then
    match threadStep h s.registers s.t1 with
    | (regs, t) => ⟨regs, t, s.t2⟩
  else
    match threadStep h s.registers s.t2 with
    | (regs, t) => ⟨regs, s.t1, t⟩

/-- Run a schedule of thread switches from an empty registry. -/
def raceRun (h : String) (sched : List Bool) : RaceState :=
  sched.foldl (raceStep h) ⟨[], ⟨0, none⟩, ⟨0, none⟩⟩

/-! Transfer lemmas. -/

theorem chunks_nil : chunks [] = [] := by
  unfold chunks; rfl

theorem chunks_cons (bs : List Nat) (h : bs ≠ []) :
    chunks bs = bs.take BUFFER :: chunks (bs.drop BUFFER) := by
  conv_lhs => unfold chunks
  simp [h]

/-- Concatenating the chunks gives back the content: the chunked sender
transmits exactly the file bytes. -/
theorem chunks_join (bs : List Nat) : (chunks bs).flatten = bs := by
  have H : ∀ n bs1, List.length bs1 ≤ n → (chunks bs1).flatten = bs1 := by
    intro n
    induction n with
    | zero =>
      intro bs1 h1
      have : bs1 = [] := List.eq_nil_of_length_eq_zero (by omega)
      subst this
      simp [chunks_nil]
    | succ m ih =>
      intro bs1 h1
      by_cases hb : bs1 = []
      · subst hb; simp [chunks_nil]
      · rw [chunks_cons bs1 hb, List.flatten_cons]
        have hpos : 0 < bs1.length := List.length_pos.mpr hb
        have hB : (0 : Nat) < BUFFER := by decide
        have hdrop : (bs1.drop BUFFER).length ≤ m := by
          simp only [List.length_drop]; omega
        rw [ih (bs1.drop BUFFER) hdrop, List.take_append_drop]
  exact H bs.length bs le_rfl

/-- The receive loop, fed the chunk deliveries of rest followed by anything
else, consumes exactly the chunks of rest and accumulates rest, provided the
declared size matches and the fuel exceeds the byte count. -/
theorem storeLoop_chunks (fuel : Nat) :
    ∀ rest received acc ds, rest.length < fuel →
      storeLoop fuel (received + rest.length) received acc (chunks rest ++ ds) =
        some (acc ++ rest, ds) := by
  induction fuel with
  | zero => intro rest received acc ds h; omega
  | succ f ih =>
    intro rest received acc ds h
    by_cases hr : rest = []
    · subst hr
      simp [chunks_nil, storeLoop]
    · have hpos : 0 < rest.length := List.length_pos.mpr hr
      have hB : (0 : Nat) < BUFFER := by decide
      rw [chunks_cons rest hr]
      unfold storeLoop
      rw [if_pos (by omega)]
      have htk : (rest.take BUFFER).length ≤ BUFFER := by
        rw [List.length_take]; omega
      rw [List.cons_append, recv_pop BUFFER _ _ htk]
      have hlen : (rest.take BUFFER).length = min BUFFER rest.length := by
        rw [List.length_take]
      have hstep := ih (rest.drop BUFFER) (received + (rest.take BUFFER).length)
        (acc ++ rest.take BUFFER) ds (by simp only [List.length_drop]; omega)
      have harith : received + (rest.take BUFFER).length + (rest.drop BUFFER).length =
          received + rest.length := by
        simp only [List.length_take, List.length_drop]; omega
      rw [harith] at hstep
      dsimp only
      rw [hstep, List.append_assoc, List.take_append_drop]

/-- Server run of a complete upload: the client deliveries of send_file_client
fed into store_file_server store the exact content under the filename. -/
theorem store_file_server_of_upload (filename : String) (content : List Nat)
    (storage : List (String × List Nat))
    (hfit : (natDecimalBytes content.length).length ≤ BUFFER) :
    store_file_server (content.length + 1) filename storage
      (send_file_client content) = some ((filename, content) :: storage, []) := by
  unfold store_file_server send_file_client
  rw [recv_pop BUFFER _ _ (le_of_eq (headerOfNat_length content.length hfit))]
  dsimp only
  rw [parseDecimal_headerOfNat]
  dsimp only
  have h := storeLoop_chunks (content.length + 1) content 0 [] []
    (Nat.lt_succ_self _)
  rw [Nat.zero_add, List.append_nil, List.nil_append] at h
  rw [h]

/-- Client run of a complete found-file download: status byte '1', size header
and chunked contents yield exactly the content. -/
theorem store_file_client_of_send (content : List Nat)
    (hfit : (natDecimalBytes content.length).length ≤ BUFFER) :
    store_file_client (content.length + 1)
      ([49] :: headerOfNat content.length :: chunks content) =
      some (some content) := by
  unfold store_file_client
  rw [recv_pop 1 [49] _ (by decide)]
  dsimp only
  rw [if_neg (by decide : ¬ ([49] : List Nat) = [48])]
  rw [recv_pop BUFFER _ _ (le_of_eq (headerOfNat_length content.length hfit))]
  dsimp only
  rw [parseDecimal_headerOfNat]
  dsimp only
  have h := storeLoop_chunks (content.length + 1) content 0 [] []
    (Nat.lt_succ_self _)
  rw [Nat.zero_add, List.append_nil, List.nil_append] at h
  rw [h]

/-- One /store exchange into empty storage followed by one /get exchange of
the same name: the composition of the four transfer functions of the source. -/
def upload_download (filename : String) (content : List Nat) : Option (List Nat) :=
  match store_file_server (content.length + 1) filename [] (send_file_client content) with
  | none => none
  | some (storage, _) =>
    match store_file_client (content.length + 1) (send_file storage filename) with
    | some (some bytes) => some bytes
    | _ => none

theorem upload_download_id (filename : String) (content : List Nat)
    (hfit : (natDecimalBytes content.length).length ≤ BUFFER) :
    upload_download filename content = some content := by
  unfold upload_download
  rw [store_file_server_of_upload filename content [] hfit]
  dsimp only
  have hsend : send_file [(filename, content)] filename =
      [49] :: headerOfNat content.length :: chunks content := by
    unfold send_file
    simp [List.lookup]
  rw [hsend, store_file_client_of_send content hfit]

/-! Claim theorems. -/

/-- C1: the frame codec claim fails on the code.  For the one-character
payload containing a non-ASCII character, encode_to_bytes writes the header
value 1 (the character count of the Python str) while the encoded payload is
2 bytes long, so reading the frame back with recv_data returns only the first
UTF-8 byte, not the original payload. -/
theorem frame_header_counts_chars_not_bytes :
    String.length "é" = 1 ∧
    (utf8Bytes "é").length = 2 ∧
    parseDecimal (encode_to_bytes "é") = some 1 ∧
    (recv_data [encode_to_bytes "é", utf8Bytes "é"]).map Prod.fst = some [195] ∧
    some [195] ≠ some (utf8Bytes "é") := by
  refine ⟨by decide, by decide, by decide, by decide, by decide⟩

/-- C2 counterexample: a stream whose deliveries concatenate to exactly one
well-formed frame (header for length 5, then the 5 payload bytes), but whose
first delivery hands the single recv only the first header byte.  recv_data
decodes that byte alone as the length 5 and then returns 5 bytes of header
padding instead of the payload. -/
theorem recv_data_split_header_cex :
    [53] ++ (List.replicate 1023 32 ++ [1, 2, 3, 4, 5]) =
      headerOfNat 5 ++ [1, 2, 3, 4, 5] ∧
    (recv_data [[53], List.replicate 1023 32 ++ [1, 2, 3, 4, 5]]).map Prod.fst =
      some [32, 32, 32, 32, 32] := by
  refine ⟨by decide, by decide⟩

/-- C2 (amended): recv_data performs a single recv of up to BUFFER bytes for
the header and a single recv of up to the decoded length for the payload; it
reads exactly the header width and exactly the declared payload length when
the connection delivers the header as one complete delivery and the payload
as the next, which is when the two recv calls are not split. -/
theorem recv_data_whole_deliveries (n : Nat) (payload : List Nat) (ds : Conn)
    (hfit : (natDecimalBytes n).length ≤ BUFFER)
    (hlen : payload.length = n) :
    recv_data (headerOfNat n :: payload :: ds) = some (payload, ds) :=
  recv_data_whole n payload ds hfit hlen

/-- C2 witness: a concrete unsplit frame round-trips. -/
theorem recv_data_whole_deliveries_witness :
    recv_data [headerOfNat 5, [1, 2, 3, 4, 5]] = some ([1, 2, 3, 4, 5], []) :=
  recv_data_whole_deliveries 5 [1, 2, 3, 4, 5] [] (by decide) (by decide)

/-- C3: register_client sends '0', returns no handle and leaves the registry
unchanged when the handle is present; when absent it appends the handle,
sends '1', returns the handle, and the resulting registry contains the handle
exactly once. -/
theorem register_client_semantics (h : String) (regs : List String) :
    (h ∈ regs → register_client h regs = ⟨[48], none, regs⟩) ∧
    (h ∉ regs →
      register_client h regs = ⟨[49], some h, regs ++ [h]⟩ ∧
      (register_client h regs).registers.count h = 1) := by
  constructor
  · intro hm
    simp [register_client, hm]
  · intro hm
    have h0 : regs.count h = 0 := List.count_eq_zero.mpr hm
    constructor
    · simp [register_client, hm]
    · simp [register_client, hm, List.count_append, h0]

/-- C3 witness: a duplicate is refused and a fresh handle is accepted. -/
theorem register_client_semantics_witness :
    register_client "alice" ["alice"] = ⟨[48], none, ["alice"]⟩ ∧
    register_client "bob" ["alice"] = ⟨[49], some "bob", ["alice", "bob"]⟩ :=
  ⟨(register_client_semantics "alice" ["alice"]).1 (by decide),
   ((register_client_semantics "bob" ["alice"]).2 (by decide)).1⟩

/-- C4: the code violates registry atomicity.  Under the schedule that runs
both membership tests of register_client before either append (legal under
the GIL, which makes each list operation atomic but not the check-then-append
pair), both racing registrations of the handle succeed and the registry ends
up containing the handle twice. -/
theorem registry_race_both_succeed :
    (raceRun "x" [true, false, true, false]).t1.result = some true ∧
    (raceRun "x" [true, false, true, false]).t2.result = some true ∧
    (raceRun "x" [true, false, true, false]).registers.count "x" = 2 := by
  refine ⟨by decide, by decide, by decide⟩

/-- C5: the code violates the handle release invariant.  A session that
successfully registers a handle (status '1' sent) and then issues the same
registration again (duplicate, status '0', which rebinds the loop's reg
variable to None) ends with the handle still in the registry after the /leave
cleanup, because the cleanup removes only the current reg. -/
theorem handle_leak_on_reregister :
    (session_loop [Request.register "alice", Request.register "alice",
      Request.leave] none [] []).sent = [[49], [48]] ∧
    (handle_client [Request.register "alice", Request.register "alice",
      Request.leave] []).1 = ["alice"] := by
  refine ⟨by decide, by decide⟩

/-- C6: upload/download round-trip.  For every file content whose size is 0,
1, BUFFER - 1, BUFFER or BUFFER + 1 bytes, storing it via the /store exchange
and fetching it back via the /get exchange returns byte-identical content. -/
theorem upload_download_round_trip (content : List Nat)
    (h : content.length = 0 ∨ content.length = 1 ∨ content.length = 1023 ∨
         content.length = 1024 ∨ content.length = 1025) :
    upload_download "f" content = some content := by
  apply upload_download_id
  rcases h with h | h | h | h | h <;> rw [h] <;> decide

/-- C6 witness: a BUFFER + 1 byte file round-trips. -/
theorem upload_download_round_trip_witness :
    upload_download "f" (List.replicate 1025 3) = some (List.replicate 1025 3) :=
  upload_download_round_trip (List.replicate 1025 3)
    (Or.inr (Or.inr (Or.inr (Or.inr (by simp)))))

/-- C7: the code violates upload disconnect resilience.  On a connection whose
peer has closed (every recv returns the empty byte string, the Python recv
behavior after a close), the store_file receive loop never finishes for any
number of iterations: received stays at 0 below the declared size 5 forever,
so no ConnectionError is raised and the handle release is never reached. -/
theorem store_loop_spins_on_closed_connection :
    ∀ fuel : Nat, storeLoop fuel 5 0 [] [] = none := by
  intro fuel
  induction fuel with
  | zero => rfl
  | succ f ih => simpa [storeLoop, recv] using ih

/-- C8 counterexample: after an unrecognized opcode whose following frame
parses, the loop of handle_client silently continues: the session goes on to
process a /register (sending status '1') and then exits normally through
/leave with nothing left unread, instead of closing at the unknown opcode. -/
theorem unknown_opcode_continues_cex :
    session_loop [Request.unknown "/foo" true, Request.register "alice",
      Request.leave] none [] [] =
      ⟨some "alice", ["alice"], [[49]], []⟩ := by decide

/-- C8 (amended): the dispatch match of handle_client has no default case, so
an unknown opcode whose following frame parses is silently skipped and the
loop reads the next token as a fresh opcode; the session ends at an unknown
opcode only when the frame read after it fails to parse (ValueError), and in
that case the registry is left as it was. -/
theorem unknown_opcode_skip_or_break (op : String) (rest : List Request)
    (regs : List String) :
    handle_client (Request.unknown op true :: rest) regs =
      handle_client rest regs ∧
    (handle_client (Request.unknown op false :: rest) regs).1 = regs := by
  exact ⟨rfl, rfl⟩

/-- C9 counterexample: with one stored file the /dir message is not the bare
newline-joined filename list; the code prepends a title line. -/
theorem dir_listing_title_line_cex :
    get_dir_msg ["a.txt"] ≠ String.intercalate "\n" ["a.txt"] ∧
    get_dir_msg ["a.txt"] = "Server Directory\n" ++ "a.txt" := by
  refine ⟨by decide, by decide⟩

/-- C9 (amended): the /dir response is one framed payload whose text is the
title line "Server Directory" followed by a newline and the newline-joined
filenames when storage is non-empty, and the fixed sentinel "Server Directory
is empty" when storage is empty. -/
theorem get_dir_sends_titled_listing (fl : List String) :
    (fl ≠ [] → get_dir fl =
      [encode_to_bytes ("Server Directory\n" ++ String.intercalate "\n" fl),
       utf8Bytes ("Server Directory\n" ++ String.intercalate "\n" fl)]) ∧
    (fl = [] → get_dir fl =
      [encode_to_bytes "Server Directory is empty",
       utf8Bytes "Server Directory is empty"]) := by
  constructor
  · intro h
    have : fl.isEmpty = false := by
      cases fl with
      | nil => exact absurd rfl h
      | cons a t => rfl
    simp [get_dir, get_dir_msg, this]
  · intro h
    subst h
    rfl

/-- C9 witness: the singleton listing is framed with its title line. -/
theorem get_dir_sends_titled_listing_witness :
    get_dir ["a.txt"] =
      [encode_to_bytes ("Server Directory\n" ++ String.intercalate "\n" ["a.txt"]),
       utf8Bytes ("Server Directory\n" ++ String.intercalate "\n" ["a.txt"])] :=
  (get_dir_sends_titled_listing ["a.txt"]).1 (by decide)

/-- C10: /get signaling.  When the filename is found in storage the server
sends status byte '1', then the size header (which parses back to the exact
content length) and chunk deliveries that concatenate to exactly the content,
and the client receives the content in full; when it is absent the server
sends the single byte '0' and nothing else, and the client returns without
creating a file (modelled as the some none outcome). -/
theorem get_not_found_signaling (storage : List (String × List Nat))
    (filename : String) :
    (∀ content, storage.lookup filename = some content →
      (natDecimalBytes content.length).length ≤ BUFFER →
      send_file storage filename =
        [49] :: headerOfNat content.length :: chunks content ∧
      parseDecimal (headerOfNat content.length) = some content.length ∧
      (chunks content).flatten = content ∧
      store_file_client (content.length + 1) (send_file storage filename) =
        some (some content)) ∧
    (storage.lookup filename = none →
      send_file storage filename = [[48]] ∧
      store_file_client 1 (send_file storage filename) = some none) := by
  constructor
  · intro content hlk hfit
    have hsend : send_file storage filename =
        [49] :: headerOfNat content.length :: chunks content := by
      unfold send_file
      rw [hlk]
    refine ⟨hsend, parseDecimal_headerOfNat content.length, chunks_join content, ?_⟩
    rw [hsend]
    exact store_file_client_of_send content hfit
  · intro hlk
    have hsend : send_file storage filename = [[48]] := by
      unfold send_file
      rw [hlk]
    refine ⟨hsend, ?_⟩
    rw [hsend]
    decide

/-- C10 witness: one stored file is found and fetched; a missing name gets
the bare '0'. -/
theorem get_not_found_signaling_witness :
    store_file_client 2 (send_file [("a", [7])] "a") = some (some [7]) ∧
    send_file [("a", [7])] "b" = [[48]] ∧
    store_file_client 1 (send_file [("a", [7])] "b") = some none := by
  have h1 := (get_not_found_signaling [("a", [7])] "a").1 [7] (by decide) (by decide)
  have h2 := (get_not_found_signaling [("a", [7])] "b").2 (by decide)
  exact ⟨h1.2.2.2, h2.1, h2.2⟩

end FileServer
